import Mathlib

set_option maxRecDepth 100000

/-!
Verification development for the `mindspore-image-processing` repository.

The repository wires framework-provided layers (convolution, batch
normalization, pooling, bilinear interpolation) into specific topologies:
the U²-Net segmentation network (`mindspore_segmentation/u2net/src/model.py`)
and a classifier predict script
(`mindspore_classification/Test11_efficientnetV2/predict.py`).

The embedding below is a shallow one.  Tensor-level operators are kept
abstract: every `construct` method of the python model is translated as a
function that is polymorphic over an algebra `Ops τ` of the framework
operators it calls (`ConvBNReLU` stages, `max_pool2d` with kernel 2,
stride 2 and `ceil_mode=True`, bilinear `interpolate` with
`align_corners=False`, channel concatenation, elementwise add, sigmoid).
Concrete interpretations of the algebra then give the facts of interest:

* `chanOps`    : channel-count semantics with checking (`Option Nat`); a
  convolution fails unless its declared input-channel count matches the
  channels of its actual input, `cat` adds channel counts;
* `spatialOps` : spatial-dimension semantics (`Option (Nat × Nat)`), with
  the usual stride-1 convolution output-size formula, ceil-mode halving
  for pooling, and resizing for interpolation;
* `resizeFlagOps` : a boolean that records whether any pooling or
  resizing operator occurred in the history of a value;
* `traceOps`   : a free (syntactic) interpretation `UTrace` used to reason
  about provenance, i.e. which stage produced the tensor that a later
  stage consumes.  At the `U2Net` level the stored sub-blocks are kept
  opaque (`tagBlock`), mirroring the module granularity of the source.

The n-ary channel concatenation `ops.concat(list, axis=1)` is modelled by
the algebra field `catAll`; binary `ops.cat([x1, x2], axis=1)` by `cat2`.
-/

/-- Parameters of a `ConvBNReLU` layer as stored by its `__init__`:
input channels, output channels, kernel size and dilation
(`model.py` lines 10-17). -/
structure ConvSpec where
  in_ch : Nat
  out_ch : Nat
  kernel_size : Nat
  dilation : Nat
deriving DecidableEq, Repr

/-- `padding = kernel_size // 2 if dilation == 1 else dilation`
(`model.py` line 13). -/
def ConvSpec.padding (s : ConvSpec) : Nat :=
  if s.dilation = 1 then s.kernel_size / 2 else s.dilation

/-- Output size of a stride-1 2d convolution along one spatial axis:
`n + 2*p - d*(k-1)` (the standard `floor((n + 2p - d(k-1) - 1)/1) + 1`). -/
def convOut (n k p d : Nat) : Nat :=
  n + 2 * p - d * (k - 1)

/-- The algebra of framework operators used by the model's `construct`
methods.  `maxPool` is `ops.max_pool2d(·, kernel_size=2, stride=2,
ceil_mode=True)`; `upTo t x` is `ops.interpolate(x, size=t.shape[2:],
mode='bilinear', align_corners=False)`; `upHW h w x` is
`ops.interpolate(x, size=[h, w], mode='bilinear', align_corners=False)`;
`conv2d cin cout k p` is a plain `nn.Conv2d(cin, cout, k, padding=p)`;
`cat2`/`catAll` are channel-axis concatenation. -/
structure Ops (τ : Type) where
  convBNReLU : ConvSpec → τ → τ
  conv2d : Nat → Nat → Nat → Nat → τ → τ
  maxPool : τ → τ
  upTo : τ → τ → τ
  upHW : Nat → Nat → τ → τ
  cat2 : τ → τ → τ
  catAll : List τ → τ
  add : τ → τ → τ
  sigmoid : τ → τ

/-- Channel-count semantics with checking: a value is `some c` when the
computation is channel-consistent and produces `c` channels. -/
def chanOps : Ops (Option Nat) where
  convBNReLU s x := x.bind fun c => if c = s.in_ch then some s.out_ch else none
  conv2d cin cout _ _ x := x.bind fun c => if c = cin then some cout else none
  maxPool x := x
  upTo _ x := x
  upHW _ _ x := x
  cat2 a b := a.bind fun c => b.bind fun d => some (c + d)
  catAll xs := xs.foldr (fun a acc => a.bind fun c => acc.bind fun s => some (c + s)) (some 0)
  add a b := a.bind fun c => b.bind fun d => if c = d then some c else none
  sigmoid x := x

/-- Spatial-dimension semantics: a value is `some (h, w)` when the
computation is spatially consistent and produces an `h × w` map. -/
def spatialOps : Ops (Option (Nat × Nat)) where
  convBNReLU s x := x.map fun p =>
    (convOut p.1 s.kernel_size s.padding s.dilation,
     convOut p.2 s.kernel_size s.padding s.dilation)
  conv2d _ _ k pad x := x.map fun p => (convOut p.1 k pad 1, convOut p.2 k pad 1)
  maxPool x := x.map fun p => ((p.1 + 1) / 2, (p.2 + 1) / 2)
  upTo t x := x.bind fun _ => t
  upHW h w x := x.map fun _ => (h, w)
  cat2 a b := a.bind fun p => b.bind fun q => if p = q then some p else none
  catAll xs :=
    match xs with
    | [] => none
    | y :: ys => ys.foldl (fun acc a => acc.bind fun p => a.bind fun q =>
        if p = q then some p else none) y
  add a b := a.bind fun p => b.bind fun q => if p = q then some p else none
  sigmoid x := x

/-- Boolean semantics recording whether any pooling or resizing operator
occurred anywhere in the history of a value. -/
def resizeFlagOps : Ops Bool where
  convBNReLU _ x := x
  conv2d _ _ _ _ x := x
  maxPool _ := true
  upTo _ _ := true
  upHW _ _ _ := true
  cat2 a b := a || b
  catAll xs := xs.foldr (fun a b => a || b) false
  add a b := a || b
  sigmoid x := x

/-- An encoder stage of `RSU`: either a `DownConvBNReLU` (with its
`down_flag`, `model.py` lines 23-34) or a plain `ConvBNReLU`
(the dilated bottleneck, line 67). -/
inductive RSUStage where
  | down : ConvSpec → Bool → RSUStage
  | conv : ConvSpec → RSUStage
deriving DecidableEq, Repr

/-- The `ConvSpec` carried by an `RSU` encoder stage. -/
def RSUStage.spec : RSUStage → ConvSpec
  | .down s _ => s
  | .conv s => s

/-- Whether an `RSU` encoder stage applies 2x2 max pooling before its
convolution (`model.py` lines 30-34): only a `DownConvBNReLU` whose
`down_flag` is set does. -/
def RSUStage.pools : RSUStage → Bool
  | .down _ flag => flag
  | .conv _ => false

/-- `DownConvBNReLU.construct` / `ConvBNReLU.construct`
(`model.py` lines 19-20 and 30-34). -/
def RSUStage.app {τ : Type} (ops : Ops τ) : RSUStage → τ → τ
  | .down s flag, x => ops.convBNReLU s (if flag then ops.maxPool x else x)
  | .conv s, x => ops.convBNReLU s x

/-- A decoder stage of `RSU`: an `UpConvBNReLU` with its `up_flag`
(`model.py` lines 37-48). -/
structure UpStage where
  spec : ConvSpec
  up_flag : Bool
deriving DecidableEq, Repr

/-- `UpConvBNReLU.construct` (`model.py` lines 44-48): optionally resize
`x1` to the spatial size of `x2`, then convolve their concatenation. -/
def UpStage.app {τ : Type} (ops : Ops τ) (s : UpStage) (x1 x2 : τ) : τ :=
  ops.convBNReLU s.spec (ops.cat2 (if s.up_flag then ops.upTo x2 x1 else x1) x2)

namespace RSU

/-- The `encode_list` built by `RSU.__init__` (`model.py` lines 60-67):
a non-pooling `DownConvBNReLU(out_ch, mid_ch, flag=False)`, then
`height - 2` pooling `DownConvBNReLU(mid_ch, mid_ch)` stages, then the
dilated bottleneck `ConvBNReLU(mid_ch, mid_ch, dilation=2)`. -/
def encode_list (height mid_ch out_ch : Nat) : List RSUStage :=
  (RSUStage.down ⟨out_ch, mid_ch, 3, 1⟩ false ::
    (List.range (height - 2)).map (fun _ => RSUStage.down ⟨mid_ch, mid_ch, 3, 1⟩ true))
  ++ [RSUStage.conv ⟨mid_ch, mid_ch, 3, 2⟩]

/-- The `decode_list` built by `RSU.__init__` (`model.py` lines 61-65):
a non-upsampling `UpConvBNReLU(mid_ch*2, mid_ch, flag=False)` followed by
`height - 2` upsampling stages, the last of which outputs `out_ch`. -/
def decode_list (height mid_ch out_ch : Nat) : List UpStage :=
  ⟨⟨mid_ch * 2, mid_ch, 3, 1⟩, false⟩ ::
    (List.range (height - 2)).map
      (fun i => ⟨⟨mid_ch * 2, if i < height - 3 then mid_ch else out_ch, 3, 1⟩, true⟩)

/-- The encoder loop of `RSU.construct` (`model.py` lines 74-78): apply
each stage to the running value and collect every stage output in order. -/
def encodeOutputs {τ : Type} (ops : Ops τ) : List RSUStage → τ → List τ
  | [], _ => []
  | s :: rest, x =>
    let y := RSUStage.app ops s x
    y :: encodeOutputs ops rest y

/-- The decoder loop of `RSU.construct` (`model.py` lines 80-83): `rem`
holds the remaining encoder outputs, most recent first (python pops from
the end of `encode_outputs`); returns the final value and the unconsumed
remainder, or `none` if a pop hits an empty list. -/
def decodeLoopAux {τ : Type} (ops : Ops τ) :
    List UpStage → τ → List τ → Option (τ × List τ)
  | [], x, rem => some (x, rem)
  | s :: rest, x, rem =>
    match rem with
    | [] => none
    | e :: es => decodeLoopAux ops rest (UpStage.app ops s x e) es

/-- `RSU.construct` (`model.py` lines 71-85): project the input with
`conv_in`, run the encoder collecting outputs, pop the last output and
fold the decoder over the remaining outputs in reverse order, then add
the input projection. -/
def construct {τ : Type} (ops : Ops τ) (height in_ch mid_ch out_ch : Nat)
    (x : τ) : Option τ :=
  let x_in := ops.convBNReLU ⟨in_ch, out_ch, 3, 1⟩ x
  match (encodeOutputs ops (encode_list height mid_ch out_ch) x_in).reverse with
  | [] => none
  | e :: es =>
    (decodeLoopAux ops (decode_list height mid_ch out_ch) e es).map
      (fun p => ops.add p.1 x_in)

end RSU

namespace RSU4F

/-- The `encode_modules` of `RSU4F.__init__` (`model.py` lines 94-99):
plain `ConvBNReLU` stages with dilations 1, 2, 4, 8. -/
def encode_list (mid_ch out_ch : Nat) : List ConvSpec :=
  [⟨out_ch, mid_ch, 3, 1⟩, ⟨mid_ch, mid_ch, 3, 2⟩,
   ⟨mid_ch, mid_ch, 3, 4⟩, ⟨mid_ch, mid_ch, 3, 8⟩]

/-- The `decode_modules` of `RSU4F.__init__` (`model.py` lines 101-104):
plain `ConvBNReLU` stages with dilations 4, 2, 1. -/
def decode_list (mid_ch out_ch : Nat) : List ConvSpec :=
  [⟨mid_ch * 2, mid_ch, 3, 4⟩, ⟨mid_ch * 2, mid_ch, 3, 2⟩,
   ⟨mid_ch * 2, out_ch, 3, 1⟩]

/-- The encoder loop of `RSU4F.construct` (`model.py` lines 109-113). -/
def encodeOutputs {τ : Type} (ops : Ops τ) : List ConvSpec → τ → List τ
  | [], _ => []
  | s :: rest, x =>
    let y := ops.convBNReLU s x
    y :: encodeOutputs ops rest y

/-- The decoder loop of `RSU4F.construct` (`model.py` lines 115-118):
no upsampling, each stage convolves the concatenation of the running
value with the popped encoder output. -/
def decodeLoopAux {τ : Type} (ops : Ops τ) :
    List ConvSpec → τ → List τ → Option (τ × List τ)
  | [], x, rem => some (x, rem)
  | s :: rest, x, rem =>
    match rem with
    | [] => none
    | e :: es => decodeLoopAux ops rest (ops.convBNReLU s (ops.cat2 x e)) es

/-- `RSU4F.construct` (`model.py` lines 106-120). -/
def construct {τ : Type} (ops : Ops τ) (in_ch mid_ch out_ch : Nat)
    (x : τ) : Option τ :=
  let x_in := ops.convBNReLU ⟨in_ch, out_ch, 3, 1⟩ x
  match (encodeOutputs ops (encode_list mid_ch out_ch) x_in).reverse with
  | [] => none
  | e :: es =>
    (decodeLoopAux ops (decode_list mid_ch out_ch) e es).map
      (fun p => ops.add p.1 x_in)

end RSU4F

/-- One row of the configuration dict of `U2Net.__init__`
(`model.py` line 135): `[height, in_ch, mid_ch, out_ch, RSU4F, side]`. -/
structure StageCfg where
  height : Nat
  in_ch : Nat
  mid_ch : Nat
  out_ch : Nat
  is4F : Bool
  side : Bool
deriving DecidableEq, Repr

/-- The `cfg` dict handed to `U2Net` (`model.py` lines 126-129):
its `"encode"` and `"decode"` entries. -/
structure U2Cfg where
  encode : List StageCfg
  decode : List StageCfg
deriving DecidableEq, Repr

/-- The free trace interpretation used for provenance reasoning at the
`U2Net` level: each constructor records one framework operator
application; `block` records the application of a stored sub-block
(`RSU` or `RSU4F`) identified by its configuration row. -/
inductive UTrace where
  | input : UTrace
  | block : StageCfg → UTrace → UTrace
  | convT : ConvSpec → UTrace → UTrace
  | conv2dT : Nat → Nat → Nat → Nat → UTrace → UTrace
  | poolT : UTrace → UTrace
  | upToT : UTrace → UTrace → UTrace
  | upHWT : Nat → Nat → UTrace → UTrace
  | cat2T : UTrace → UTrace → UTrace
  | catNilT : UTrace
  | addT : UTrace → UTrace → UTrace
  | sigmoidT : UTrace → UTrace
deriving DecidableEq, Repr

/-- The syntactic algebra over `UTrace`; the n-ary concatenation is
represented as a right fold of the binary one. -/
def traceOps : Ops UTrace where
  convBNReLU := .convT
  conv2d := .conv2dT
  maxPool := .poolT
  upTo := .upToT
  upHW := .upHWT
  cat2 := .cat2T
  catAll xs := xs.foldr .cat2T .catNilT
  add := .addT
  sigmoid := .sigmoidT

/-- The opaque-block interpretation of the stored sub-modules: at the
`U2Net` level a sub-block application is recorded as a single `block`
node, mirroring the module granularity of `self.encode_modules[i](x)`. -/
def tagBlock (c : StageCfg) (x : UTrace) : Option UTrace :=
  some (.block c x)

namespace U2Net

/-- The dispatch of `U2Net.__init__` (`model.py` lines 137-138 and
149-150): a configuration row builds `RSU(*c[:4])` when `c[4]` is
`False` and `RSU4F(*c[1:4])` otherwise. -/
def rsuBlock {τ : Type} (ops : Ops τ) (c : StageCfg) (x : τ) : Option τ :=
  if c.is4F then RSU4F.construct ops c.in_ch c.mid_ch c.out_ch x
  else RSU.construct ops c.height c.in_ch c.mid_ch c.out_ch x

/-- The `side_list` of `U2Net.__init__` (`model.py` lines 133-156),
reduced to what each side head depends on: the input-channel count
`c[3]` of each configuration row with `side` set, encoder rows first,
then decoder rows; each head is `nn.Conv2d(c[3], out_ch, kernel_size=3,
padding=1)`. -/
def side_channels (cfg : U2Cfg) : List Nat :=
  (cfg.encode.filter (fun c => c.side)).map (fun c => c.out_ch) ++
  (cfg.decode.filter (fun c => c.side)).map (fun c => c.out_ch)

/-- The encoder loop of `U2Net.construct` (`model.py` lines 164-169):
apply each stored block, collect its output, and max-pool the running
value between stages (`if i != self.encode_num - 1`). -/
def encodeLoop {τ : Type} (ops : Ops τ) (block : StageCfg → τ → Option τ) :
    List StageCfg → Nat → Nat → τ → Option (List τ)
  | [], _, _, _ => some []
  | c :: rest, i, n, x =>
    (block c x).bind fun y =>
      (encodeLoop ops block rest (i + 1) n
        (if i ≠ n - 1 then ops.maxPool y else y)).map
        fun ys => y :: ys

/-- The decoder loop of `U2Net.construct` (`model.py` lines 174-179):
`eouts` holds the remaining encoder outputs, most recent first; the
running value is resized to the popped output's spatial size, their
concatenation goes through the stored block, and each result is
inserted at the front of the accumulator. -/
def decodeLoopAux {τ : Type} (ops : Ops τ) (block : StageCfg → τ → Option τ) :
    List StageCfg → τ → List τ → List τ → Option (List τ × List τ)
  | [], _, eouts, acc => some (acc, eouts)
  | c :: rest, x, eouts, acc =>
    match eouts with
    | [] => none
    | e :: es =>
      (block c (ops.cat2 (ops.upTo e x) e)).bind fun y =>
        decodeLoopAux ops block rest y es (y :: acc)

/-- The side-output loop of `U2Net.construct` (`model.py` lines
182-187): `douts` holds the remaining elements of `decode_outputs`,
most recent first; each side head convolves the popped element and
resizes the result to the input resolution `[h, w]`, inserting it at
the front of the accumulator.  Returns the side outputs and the
unconsumed remainder. -/
def sideLoopAux {τ : Type} (ops : Ops τ) (oc h w : Nat) :
    List Nat → List τ → List τ → Option (List τ × List τ)
  | [], douts, acc => some (acc, douts)
  | cin :: rest, douts, acc =>
    match douts with
    | [] => none
    | d :: ds =>
      sideLoopAux ops oc h w rest ds
        (ops.upHW h w (ops.conv2d cin oc 3 1 d) :: acc)

/-- The encoder phase of `U2Net.construct` (`model.py` lines 164-169),
with `encode_num = len(cfg["encode"])` (line 130). -/
def encode_outputs {τ : Type} (ops : Ops τ) (block : StageCfg → τ → Option τ)
    (cfg : U2Cfg) (x : τ) : Option (List τ) :=
  encodeLoop ops block cfg.encode 0 cfg.encode.length x

/-- The `decode_outputs` list of `U2Net.construct` (`model.py` lines
172-179): the deepest encoder output seeds the accumulator, then the
decoder loop runs over the remaining encoder outputs in reverse. -/
def decode_outputs {τ : Type} (ops : Ops τ) (block : StageCfg → τ → Option τ)
    (cfg : U2Cfg) (x : τ) : Option (List τ) :=
  (encode_outputs ops block cfg x).bind fun eouts =>
    match eouts.reverse with
    | [] => none
    | e :: es =>
      (decodeLoopAux ops block cfg.decode e es [e]).map fun p => p.1

/-- The `side_outputs` list of `U2Net.construct` (`model.py` lines
182-187): the side loop pops `decode_outputs` from the end; the
unconsumed remainder is discarded, as in the source. -/
def side_outputs {τ : Type} (ops : Ops τ) (block : StageCfg → τ → Option τ)
    (cfg : U2Cfg) (oc h w : Nat) (x : τ) : Option (List τ) :=
  (decode_outputs ops block cfg x).bind fun douts =>
    (sideLoopAux ops oc h w (side_channels cfg) douts.reverse []).map fun p => p.1

/-- The fused output and the side outputs of `U2Net.construct`
(`model.py` line 189): the fusion head is `self.out_conv =
nn.Conv2d(self.encode_num * out_ch, out_ch, kernel_size=1)`
(lines 157-158) applied to the concatenation of the side outputs. -/
def pipe {τ : Type} (ops : Ops τ) (block : StageCfg → τ → Option τ)
    (cfg : U2Cfg) (oc h w : Nat) (x : τ) : Option (τ × List τ) :=
  (side_outputs ops block cfg oc h w x).map fun souts =>
    (ops.conv2d (cfg.encode.length * oc) oc 1 0 (ops.catAll souts), souts)

/-- The two return shapes of `U2Net.construct`. -/
inductive Out (τ : Type) where
  | single : τ → Out τ
  | multi : List τ → Out τ
deriving DecidableEq, Repr

/-- `U2Net.construct` (`model.py` lines 160-196): in training mode the
fused output followed by all side outputs, otherwise the sigmoid of the
fused output. -/
def construct {τ : Type} (ops : Ops τ) (block : StageCfg → τ → Option τ)
    (cfg : U2Cfg) (oc : Nat) (train : Bool) (h w : Nat) (x : τ) :
    Option (Out τ) :=
  (pipe ops block cfg oc h w x).map fun p =>
    if train then .multi (p.1 :: p.2) else .single (ops.sigmoid p.1)

end U2Net

/-- The configuration dict of `u2net_full` (`model.py` lines 199-217),
rows `[height, in_ch, mid_ch, out_ch, RSU4F, side]`. -/
def u2net_full_cfg : U2Cfg where
  encode := [⟨7, 3, 32, 64, false, false⟩,
             ⟨6, 64, 32, 128, false, false⟩,
             ⟨5, 128, 64, 256, false, false⟩,
             ⟨4, 256, 128, 512, false, false⟩,
             ⟨4, 512, 256, 512, true, false⟩,
             ⟨4, 512, 256, 512, true, true⟩]
  decode := [⟨4, 1024, 256, 512, true, true⟩,
             ⟨4, 1024, 128, 256, false, true⟩,
             ⟨5, 512, 64, 128, false, true⟩,
             ⟨6, 256, 32, 64, false, true⟩,
             ⟨7, 128, 16, 64, false, true⟩]

/-- The configuration dict of `u2net_lite` (`model.py` lines 220-238). -/
def u2net_lite_cfg : U2Cfg where
  encode := [⟨7, 3, 16, 64, false, false⟩,
             ⟨6, 64, 16, 64, false, false⟩,
             ⟨5, 64, 16, 64, false, false⟩,
             ⟨4, 64, 16, 64, false, false⟩,
             ⟨4, 64, 16, 64, true, false⟩,
             ⟨4, 64, 16, 64, true, true⟩]
  decode := [⟨4, 128, 16, 64, true, true⟩,
             ⟨4, 128, 16, 64, false, true⟩,
             ⟨5, 128, 16, 64, false, true⟩,
             ⟨6, 128, 16, 64, false, true⟩,
             ⟨7, 128, 16, 64, false, true⟩]

/-- Whether a trace was produced by one of the stored decoder blocks of
the given configuration. -/
def fromDecodeB (cfg : U2Cfg) : UTrace → Bool
  | .block c _ => decide (c ∈ cfg.decode)
  | _ => false

/-- Whether a trace was produced by one of the stored encoder blocks of
the given configuration. -/
def fromEncodeB (cfg : U2Cfg) : UTrace → Bool
  | .block c _ => decide (c ∈ cfg.encode)
  | _ => false

/-- Whether a side output (in the trace semantics) is a side
convolution of a decoder-block output, resized to the input
resolution. -/
def sideFromDecode (cfg : U2Cfg) : UTrace → Bool
  | .upHWT _ _ (.conv2dT _ _ _ _ t) => fromDecodeB cfg t
  | _ => false

/-- Whether a side output (in the trace semantics) is a side
convolution of an encoder-block output, resized to the input
resolution. -/
def sideFromEncode (cfg : U2Cfg) : UTrace → Bool
  | .upHWT _ _ (.conv2dT _ _ _ _ t) => fromEncodeB cfg t
  | _ => false

namespace Predict

/-- The `img_size` dict of the classifier predict script
(`predict.py` lines 18-20): model letter to `(train_size, val_size)`. -/
def img_size : List (String × (Nat × Nat)) :=
  [("s", (300, 384)), ("m", (384, 480)), ("l", (384, 480))]

/-- `num_model = "s"` (`predict.py` line 21). -/
def num_model : String := "s"

/-- `img_size[num_model][1]`, the validation size used by both the
resize and the center-crop transform (`predict.py` lines 24-25). -/
def val_size : Nat := ((img_size.lookup num_model).getD (0, 0)).2

/-- One step of the `ds.transforms.Compose` preprocessing pipeline
(`predict.py` lines 23-27). -/
inductive VisionStep where
  | resize : Nat → VisionStep
  | centerCrop : Nat → VisionStep
  | toTensor : VisionStep
  | normalize : List ℚ → List ℚ → VisionStep
deriving DecidableEq, Repr

/-- The `data_transform` pipeline (`predict.py` lines 23-27): resize to
the validation size, center-crop to the same size, convert to tensor,
normalize each channel with mean 0.5 and std 0.5. -/
def data_transform : List VisionStep :=
  [.resize val_size, .centerCrop val_size, .toTensor,
   .normalize [1/2, 1/2, 1/2] [1/2, 1/2, 1/2]]

/-- The dataflow of the predict script, one constructor per operation it
applies (`predict.py` lines 37-61). -/
inductive PredExpr where
  | image : PredExpr
  | transformed : List VisionStep → PredExpr → PredExpr
  | unsqueezeB : PredExpr → PredExpr
  | modelForward : Nat → PredExpr → PredExpr
  | squeezeB : PredExpr → PredExpr
  | softmaxA : Nat → PredExpr → PredExpr
  | argmaxA : PredExpr → PredExpr
deriving DecidableEq, Repr

/-- `num_classes=5` handed to `create_model` (`predict.py` line 50). -/
def num_classes : Nat := 5

/-- `predict = ops.softmax(ops.squeeze(model(img)), axis=0)` where
`img` is the transformed input with a batch dimension added
(`predict.py` lines 37-39 and 59-60). -/
def predict_scores : PredExpr :=
  .softmaxA 0 (.squeezeB (.modelForward num_classes
    (.unsqueezeB (.transformed data_transform .image))))

/-- `predict_cla = ops.argmax(predict)` (`predict.py` line 61). -/
def predict_cla : PredExpr := .argmaxA predict_scores

end Predict

/-- Whether an `RSU` encoder stage is a `DownConvBNReLU`
(`model.py` lines 60-63), whatever its `down_flag`. -/
def RSUStage.isDown : RSUStage → Bool
  | .down _ _ => true
  | .conv _ => false

/-- Per side output: whether it is the side convolution of a
decoder-block output, and whether it is the side convolution of an
encoder-block output. -/
def sidesProfile (cfg : U2Cfg) (l : List UTrace) : List Bool × List Bool :=
  (l.map (sideFromDecode cfg), l.map (sideFromEncode cfg))

/-- Whether every side output is the side convolution of a
decoder-block output. -/
def allSidesFromDecode (cfg : U2Cfg) (l : List UTrace) : Bool :=
  l.all (sideFromDecode cfg)

/-- Profile of the `decode_outputs` list in the order the side loop pops
it (end first): its length and, per element, whether it comes from a
stored decoder block and whether it comes from a stored encoder block. -/
def doutsProfile (cfg : U2Cfg) (l : List UTrace) : Nat × List Bool × List Bool :=
  (l.length, l.reverse.map (fromDecodeB cfg), l.reverse.map (fromEncodeB cfg))

/-- The side loop of `U2Net.construct` run in the channel semantics at
`out_ch = 1`, keeping the unconsumed remainder of `decode_outputs`. -/
def sideConsume (cfg : U2Cfg) (douts : List (Option Nat)) :
    Option (List (Option Nat) × List (Option Nat)) :=
  U2Net.sideLoopAux chanOps 1 0 0 (U2Net.side_channels cfg) douts.reverse []

/-! ### Shared structural lemmas -/

theorem RSU.encodeOutputs_length {τ : Type} (ops : Ops τ) :
    ∀ (l : List RSUStage) (x : τ), (RSU.encodeOutputs ops l x).length = l.length
  | [], _ => rfl
  | s :: rest, x => by
      simp [RSU.encodeOutputs, RSU.encodeOutputs_length ops rest]

theorem RSU.decodeLoopAux_eq {τ : Type} (ops : Ops τ) :
    ∀ (stages : List UpStage) (x : τ) (rem : List τ),
      stages.length ≤ rem.length →
      RSU.decodeLoopAux ops stages x rem =
        some ((stages.zip rem).foldl (fun a p => UpStage.app ops p.1 a p.2) x,
              rem.drop stages.length)
  | [], x, rem, _ => by simp [RSU.decodeLoopAux]
  | s :: rest, x, rem, hle => by
      match rem with
      | [] => simp at hle
      | e :: es =>
          simp only [List.length_cons, Nat.add_le_add_iff_right] at hle
          simp [RSU.decodeLoopAux, List.zip_cons_cons,
            RSU.decodeLoopAux_eq ops rest (UpStage.app ops s x e) es hle]

theorem RSU.encode_list_length (h m o : Nat) (hh : 2 ≤ h) :
    (RSU.encode_list h m o).length = h := by
  simp [RSU.encode_list]
  omega

theorem RSU.decode_list_length (h m o : Nat) (hh : 2 ≤ h) :
    (RSU.decode_list h m o).length = h - 1 := by
  simp [RSU.decode_list]
  omega

theorem U2Net.sideLoopAux_eq {τ : Type} (ops : Ops τ) (oc h w : Nat) :
    ∀ (sides : List Nat) (douts acc : List τ),
      sides.length ≤ douts.length →
      U2Net.sideLoopAux ops oc h w sides douts acc =
        some (((sides.zip douts).map
            (fun p => ops.upHW h w (ops.conv2d p.1 oc 3 1 p.2))).reverse ++ acc,
          douts.drop sides.length)
  | [], douts, acc, _ => by simp [U2Net.sideLoopAux]
  | cin :: rest, douts, acc, hle => by
      match douts with
      | [] => simp at hle
      | d :: ds =>
          simp only [List.length_cons, Nat.add_le_add_iff_right] at hle
          simp [U2Net.sideLoopAux, List.zip_cons_cons,
            U2Net.sideLoopAux_eq ops oc h w rest ds
              (ops.upHW h w (ops.conv2d cin oc 3 1 d) :: acc) hle]

theorem U2Net.pipe_fused {τ : Type} (ops : Ops τ) (block : StageCfg → τ → Option τ)
    (cfg : U2Cfg) (oc h w : Nat) (x : τ) (f : τ) (s : List τ)
    (hp : U2Net.pipe ops block cfg oc h w x = some (f, s)) :
    f = ops.conv2d (cfg.encode.length * oc) oc 1 0 (ops.catAll s) ∧
    U2Net.side_outputs ops block cfg oc h w x = some s := by
  unfold U2Net.pipe at hp
  cases hso : U2Net.side_outputs ops block cfg oc h w x with
  | none => rw [hso] at hp; simp at hp
  | some souts =>
      rw [hso] at hp
      simp only [Option.map_some', Option.some.injEq, Prod.mk.injEq] at hp
      obtain ⟨hf, hs⟩ := hp
      subst hs
      exact ⟨hf.symm, rfl⟩

theorem convBNReLU_spatial (s : ConvSpec) (a b : Nat)
    (hk : s.kernel_size = 3) (hd : 1 ≤ s.dilation) :
    spatialOps.convBNReLU s (some (a, b)) = some (a, b) := by
  by_cases h1 : s.dilation = 1 <;>
    simp [spatialOps, ConvSpec.padding, convOut, hk, h1] <;>
    constructor <;> omega

theorem RSU.encode_reverse_tail_length {τ : Type} (ops : Ops τ)
    (h i m o : Nat) (hh : 2 ≤ h) (x e : τ) (es : List τ)
    (hrev : (RSU.encodeOutputs ops (RSU.encode_list h m o)
        (ops.convBNReLU ⟨i, o, 3, 1⟩ x)).reverse = e :: es) :
    es.length = h - 1 := by
  have h1 : (RSU.encodeOutputs ops (RSU.encode_list h m o)
      (ops.convBNReLU ⟨i, o, 3, 1⟩ x)).reverse.length = h := by
    rw [List.length_reverse, RSU.encodeOutputs_length,
      RSU.encode_list_length h m o hh]
  rw [hrev] at h1
  simp only [List.length_cons] at h1
  omega

/-! ### Claim theorems -/

/-- C1, counterexample to the claim as stated: at `height = 7` (the En1
block of `u2net_full`), the number of encoder stages that apply 2x2 max
pooling before their convolution is 5, not `height - 1 = 6`: the first
`DownConvBNReLU` is built with `flag=False` (`model.py` line 60). -/
theorem c1_claim_counterexample :
    ¬ ((RSU.encode_list 7 12 3).filter RSUStage.pools).length = 7 - 1 := by
  decide

/-- C1 (amended): for every `height ≥ 2`, the `RSU` encoder contains
exactly `height - 1` `DownConvBNReLU` stages, of which the first does
not pool and only the remaining `height - 2` apply 2x2 max pooling
before their convolution, followed by a dilated bottleneck
`ConvBNReLU(mid_ch, mid_ch, dilation=2)`. -/
theorem c1_rsu_encoder_stages (h m o : Nat) (hh : 2 ≤ h) :
    ((RSU.encode_list h m o).filter RSUStage.pools).length = h - 2 ∧
    ((RSU.encode_list h m o).filter RSUStage.isDown).length = h - 1 ∧
    (RSU.encode_list h m o).head? = some (.down ⟨o, m, 3, 1⟩ false) ∧
    (RSU.encode_list h m o).getLast? = some (.conv ⟨m, m, 3, 2⟩) := by
  refine ⟨?_, ?_, ?_, ?_⟩
  · simp [RSU.encode_list, RSUStage.pools]
  · simp [RSU.encode_list, RSUStage.isDown]
    omega
  · simp [RSU.encode_list]
  · rw [RSU.encode_list]
    exact List.getLast?_concat _

/-- C1 witness: the amended statement evaluated at `height = 7`,
`mid_ch = 12`, `out_ch = 3`. -/
theorem c1_rsu_encoder_stages_witness :
    ((RSU.encode_list 7 12 3).filter RSUStage.pools).length = 7 - 2 ∧
    ((RSU.encode_list 7 12 3).filter RSUStage.isDown).length = 7 - 1 ∧
    (RSU.encode_list 7 12 3).head? = some (.down ⟨3, 12, 3, 1⟩ false) ∧
    (RSU.encode_list 7 12 3).getLast? = some (.conv ⟨12, 12, 3, 2⟩) :=
  c1_rsu_encoder_stages 7 12 3 (by decide)

/-- C8: for every `height ≥ 2`, `RSU` builds exactly `height` encoder
modules and `height - 1` decoder modules; consequently, in every
interpretation of the operator algebra, the decoder loop of
`RSU.construct` consumes the popped encoder outputs without ever
popping an empty list, leaves the list exactly empty, and the whole
`construct` succeeds. -/
theorem c8_rsu_pops_safe (h i m o : Nat) (hh : 2 ≤ h) :
    (RSU.encode_list h m o).length = h ∧
    (RSU.decode_list h m o).length = h - 1 ∧
    (∀ (τ : Type) (ops : Ops τ) (x : τ),
      (∀ (e : τ) (es : List τ),
        (RSU.encodeOutputs ops (RSU.encode_list h m o)
            (ops.convBNReLU ⟨i, o, 3, 1⟩ x)).reverse = e :: es →
        ∃ d, RSU.decodeLoopAux ops (RSU.decode_list h m o) e es = some (d, [])) ∧
      (RSU.construct ops h i m o x).isSome = true) := by
  refine ⟨RSU.encode_list_length h m o hh, RSU.decode_list_length h m o hh, ?_⟩
  intro τ ops x
  have hsafe : ∀ (e : τ) (es : List τ),
      (RSU.encodeOutputs ops (RSU.encode_list h m o)
          (ops.convBNReLU ⟨i, o, 3, 1⟩ x)).reverse = e :: es →
      ∃ d, RSU.decodeLoopAux ops (RSU.decode_list h m o) e es = some (d, []) := by
    intro e es hrev
    have hes := RSU.encode_reverse_tail_length ops h i m o hh x e es hrev
    have hdl := RSU.decodeLoopAux_eq ops (RSU.decode_list h m o) e es
      (by rw [RSU.decode_list_length h m o hh, hes])
    rw [List.drop_eq_nil_of_le
      (by rw [RSU.decode_list_length h m o hh, hes])] at hdl
    exact ⟨_, hdl⟩
  refine ⟨hsafe, ?_⟩
  cases hrev : (RSU.encodeOutputs ops (RSU.encode_list h m o)
      (ops.convBNReLU ⟨i, o, 3, 1⟩ x)).reverse with
  | nil =>
      exfalso
      have h1 : (RSU.encodeOutputs ops (RSU.encode_list h m o)
          (ops.convBNReLU ⟨i, o, 3, 1⟩ x)).reverse.length = h := by
        rw [List.length_reverse, RSU.encodeOutputs_length,
          RSU.encode_list_length h m o hh]
      rw [hrev] at h1
      simp at h1
      omega
  | cons e es =>
      obtain ⟨d, hd2⟩ := hsafe e es hrev
      simp [RSU.construct, hrev, hd2]

/-- C8 witness: the safety conclusion evaluated at `height = 7` in the
resize-flag interpretation. -/
theorem c8_rsu_pops_safe_witness :
    (RSU.construct resizeFlagOps 7 3 12 3 false).isSome = true :=
  ((c8_rsu_pops_safe 7 3 12 3 (by decide)).2.2 Bool resizeFlagOps false).2

/-- C5: for every `height ≥ 2` and every interpretation of the operator
algebra, `RSU.construct` returns the final decoder output added to the
block's input projection `conv_in(x)`, where the decoder folds the
`UpConvBNReLU` stages (concatenation with optional upsampling,
`UpStage.app`) over the encoder outputs in reverse order, pairing each
decoder stage with the matching encoder output. -/
theorem c5_rsu_decode_residual {τ : Type} (ops : Ops τ) (h i m o : Nat)
    (hh : 2 ≤ h) (x e : τ) (es : List τ)
    (hrev : (RSU.encodeOutputs ops (RSU.encode_list h m o)
        (ops.convBNReLU ⟨i, o, 3, 1⟩ x)).reverse = e :: es) :
    RSU.construct ops h i m o x =
      some (ops.add
        (((RSU.decode_list h m o).zip es).foldl
          (fun a p => UpStage.app ops p.1 a p.2) e)
        (ops.convBNReLU ⟨i, o, 3, 1⟩ x)) := by
  have hes := RSU.encode_reverse_tail_length ops h i m o hh x e es hrev
  have hdl := RSU.decodeLoopAux_eq ops (RSU.decode_list h m o) e es
    (by rw [RSU.decode_list_length h m o hh, hes])
  rw [List.drop_eq_nil_of_le
    (by rw [RSU.decode_list_length h m o hh, hes])] at hdl
  simp [RSU.construct, hrev, hdl]

/-- C5 witness: the statement evaluated at `height = 2` in the
resize-flag interpretation, where the residual sum reduces to `false`
(no resizing happens at height 2). -/
theorem c5_rsu_decode_residual_witness :
    (RSU.encodeOutputs resizeFlagOps (RSU.encode_list 2 5 7)
        (resizeFlagOps.convBNReLU ⟨3, 7, 3, 1⟩ false)).reverse = false :: [false] ∧
    RSU.construct resizeFlagOps 2 3 5 7 false = some false :=
  ⟨rfl, c5_rsu_decode_residual resizeFlagOps 2 3 5 7 (by decide) false false [false] rfl⟩

theorem RSU4F.encodeOutputs_spatial (l : List ConvSpec)
    (hl : ∀ s ∈ l, s.kernel_size = 3 ∧ 1 ≤ s.dilation) (p : Nat × Nat) :
    RSU4F.encodeOutputs spatialOps l (some p) = List.replicate l.length (some p) := by
  induction l with
  | nil => rfl
  | cons s rest ih =>
      have hs := hl s (List.mem_cons_self s rest)
      have hrest : ∀ s2 ∈ rest, s2.kernel_size = 3 ∧ 1 ≤ s2.dilation :=
        fun s2 h2 => hl s2 (List.mem_cons_of_mem s h2)
      simp only [RSU4F.encodeOutputs, convBNReLU_spatial s p.1 p.2 hs.1 hs.2,
        ih hrest, List.length_cons, List.replicate_succ]

theorem RSU4F.decodeLoopAux_spatial (l : List ConvSpec)
    (hl : ∀ s ∈ l, s.kernel_size = 3 ∧ 1 ≤ s.dilation) (p : Nat × Nat) :
    ∀ (rem : List (Option (Nat × Nat))), (∀ r ∈ rem, r = some p) →
      l.length ≤ rem.length →
      RSU4F.decodeLoopAux spatialOps l (some p) rem =
        some (some p, rem.drop l.length) := by
  induction l with
  | nil => intro rem _ _; rfl
  | cons s rest ih =>
      intro rem hrem hlen
      match rem with
      | [] => simp at hlen
      | r :: rs =>
          have hr : r = some p := hrem r (List.mem_cons_self r rs)
          have hrs : ∀ r2 ∈ rs, r2 = some p :=
            fun r2 h2 => hrem r2 (List.mem_cons_of_mem r h2)
          have hs := hl s (List.mem_cons_self s rest)
          have hrest : ∀ s2 ∈ rest, s2.kernel_size = 3 ∧ 1 ≤ s2.dilation :=
            fun s2 h2 => hl s2 (List.mem_cons_of_mem s h2)
          have hcat : spatialOps.cat2 (some p) (some p) = some p := by
            simp [spatialOps]
          simp only [RSU4F.decodeLoopAux, hr, hcat,
            convBNReLU_spatial s p.1 p.2 hs.1 hs.2, List.length_cons, List.drop_succ_cons]
          exact ih hrest rs hrs (by simpa using hlen)

/-- C10: with the default kernel size 3 and any dilation `d ≥ 1`, the
padding chosen by `ConvBNReLU.__init__` (`kernel_size // 2` when
`d == 1`, otherwise `d`) makes the convolution preserve the spatial
height and width of its input; moreover every `ConvBNReLU` stage built
by `RSU` and `RSU4F` has kernel size 3 and dilation at least 1, so all
of them are shape-preserving. -/
theorem c10_convbnrelu_shape_preserving (s : ConvSpec) (a b : Nat)
    (hk : s.kernel_size = 3) (hd : 1 ≤ s.dilation) :
    spatialOps.convBNReLU s (some (a, b)) = some (a, b) ∧
    (∀ (ht mc oc : Nat) (st : RSUStage), st ∈ RSU.encode_list ht mc oc →
      st.spec.kernel_size = 3 ∧ 1 ≤ st.spec.dilation) ∧
    (∀ (ht mc oc : Nat) (st : UpStage), st ∈ RSU.decode_list ht mc oc →
      st.spec.kernel_size = 3 ∧ 1 ≤ st.spec.dilation) ∧
    (∀ (mc oc : Nat) (sp : ConvSpec), sp ∈ RSU4F.encode_list mc oc →
      sp.kernel_size = 3 ∧ 1 ≤ sp.dilation) ∧
    (∀ (mc oc : Nat) (sp : ConvSpec), sp ∈ RSU4F.decode_list mc oc →
      sp.kernel_size = 3 ∧ 1 ≤ sp.dilation) := by
  refine ⟨convBNReLU_spatial s a b hk hd, ?_, ?_, ?_, ?_⟩
  · intro ht mc oc st hst
    simp only [RSU.encode_list, List.mem_append, List.mem_cons, List.mem_map,
      List.mem_range, List.mem_singleton, List.not_mem_nil, or_false] at hst
    rcases hst with (rfl | ⟨idx, -, rfl⟩) | rfl <;> simp [RSUStage.spec]
  · intro ht mc oc st hst
    simp only [RSU.decode_list, List.mem_cons, List.mem_map, List.mem_range] at hst
    rcases hst with rfl | ⟨idx, -, rfl⟩ <;> simp [UpStage.spec]
  · intro mc oc sp hsp
    simp only [RSU4F.encode_list, List.mem_cons, List.not_mem_nil, or_false] at hsp
    rcases hsp with rfl | rfl | rfl | rfl <;> simp
  · intro mc oc sp hsp
    simp only [RSU4F.decode_list, List.mem_cons, List.not_mem_nil, or_false] at hsp
    rcases hsp with rfl | rfl | rfl <;> simp

/-- C10 witness: shape preservation at a concrete dilated layer and a
concrete input size. -/
theorem c10_convbnrelu_shape_preserving_witness :
    spatialOps.convBNReLU ⟨1, 1, 3, 2⟩ (some (5, 9)) = some (5, 9) :=
  (c10_convbnrelu_shape_preserving ⟨1, 1, 3, 2⟩ 5 9 rfl (by norm_num)).1

/-- C4: `RSU4F` applies no spatial pooling and no spatial resizing
anywhere (in the resize-flag semantics no pooling or interpolation
operator ever fires), its encoder stages use dilations 1, 2, 4, 8 in
that order, its decoder stages use dilations 4, 2, 1, and in the
spatial semantics every encoder stage output and the block output keep
the input's spatial dimensions. -/
theorem c4_rsu4f_dilations_no_resize (i m o h w : Nat) :
    (RSU4F.encode_list m o).map ConvSpec.dilation = [1, 2, 4, 8] ∧
    (RSU4F.decode_list m o).map ConvSpec.dilation = [4, 2, 1] ∧
    RSU4F.construct resizeFlagOps i m o false = some false ∧
    RSU4F.encodeOutputs spatialOps (RSU4F.encode_list m o)
      (spatialOps.convBNReLU ⟨i, o, 3, 1⟩ (some (h, w))) =
      [some (h, w), some (h, w), some (h, w), some (h, w)] ∧
    RSU4F.construct spatialOps i m o (some (h, w)) = some (some (h, w)) := by
  have hcin : spatialOps.convBNReLU ⟨i, o, 3, 1⟩ (some (h, w)) = some (h, w) :=
    convBNReLU_spatial _ h w rfl (by norm_num)
  have h1 : spatialOps.convBNReLU ⟨o, m, 3, 1⟩ (some (h, w)) = some (h, w) :=
    convBNReLU_spatial _ h w rfl (by norm_num)
  have h2 : spatialOps.convBNReLU ⟨m, m, 3, 2⟩ (some (h, w)) = some (h, w) :=
    convBNReLU_spatial _ h w rfl (by norm_num)
  have h3 : spatialOps.convBNReLU ⟨m, m, 3, 4⟩ (some (h, w)) = some (h, w) :=
    convBNReLU_spatial _ h w rfl (by norm_num)
  have h4 : spatialOps.convBNReLU ⟨m, m, 3, 8⟩ (some (h, w)) = some (h, w) :=
    convBNReLU_spatial _ h w rfl (by norm_num)
  have hd1 : spatialOps.convBNReLU ⟨m * 2, m, 3, 4⟩ (some (h, w)) = some (h, w) :=
    convBNReLU_spatial _ h w rfl (by norm_num)
  have hd2 : spatialOps.convBNReLU ⟨m * 2, m, 3, 2⟩ (some (h, w)) = some (h, w) :=
    convBNReLU_spatial _ h w rfl (by norm_num)
  have hd3 : spatialOps.convBNReLU ⟨m * 2, o, 3, 1⟩ (some (h, w)) = some (h, w) :=
    convBNReLU_spatial _ h w rfl (by norm_num)
  have hcat : spatialOps.cat2 (some (h, w)) (some (h, w)) = some (h, w) := by
    simp [spatialOps]
  have hadd : spatialOps.add (some (h, w)) (some (h, w)) = some (h, w) := by
    simp [spatialOps]
  refine ⟨rfl, rfl, rfl, ?_, ?_⟩
  · simp only [RSU4F.encode_list, RSU4F.encodeOutputs, hcin, h1, h2, h3, h4]
  · simp only [RSU4F.construct, RSU4F.encode_list, RSU4F.decode_list,
      RSU4F.encodeOutputs, RSU4F.decodeLoopAux, hcin, h1, h2, h3, h4,
      List.reverse_cons, List.reverse_nil, List.nil_append, List.cons_append,
      List.singleton_append, hcat, hd1, hd2, hd3, hadd, Option.map_some']

/-- C2: whenever the side-output phase succeeds, `U2Net.construct`
returns in training mode the list headed by the fused output (the 1x1
fusion convolution of the concatenated side outputs, with no sigmoid
applied) followed by all side outputs, and in inference mode the
sigmoid of the fused output alone; in the channel semantics the
`u2net_full` inference output is a single map with `out_ch = 1`
channels. -/
theorem c2_u2net_train_eval_outputs {τ : Type} (ops : Ops τ)
    (block : StageCfg → τ → Option τ) (cfg : U2Cfg) (oc h w : Nat) (x : τ)
    (fused : τ) (souts : List τ)
    (hp : U2Net.pipe ops block cfg oc h w x = some (fused, souts)) :
    U2Net.construct ops block cfg oc true h w x = some (.multi (fused :: souts)) ∧
    U2Net.construct ops block cfg oc false h w x = some (.single (ops.sigmoid fused)) ∧
    fused = ops.conv2d (cfg.encode.length * oc) oc 1 0 (ops.catAll souts) ∧
    U2Net.construct chanOps (U2Net.rsuBlock chanOps) u2net_full_cfg 1 false 0 0
      (some 3) = some (.single (some 1)) := by
  refine ⟨?_, ?_, (U2Net.pipe_fused ops block cfg oc h w x fused souts hp).1, rfl⟩
  · simp [U2Net.construct, hp]
  · simp [U2Net.construct, hp]

/-- C2 witness: the pipeline evaluated on `u2net_full` in the channel
semantics at `out_ch = 1`; training mode returns the fused map followed
by the six side maps. -/
theorem c2_u2net_train_eval_outputs_witness :
    U2Net.pipe chanOps (U2Net.rsuBlock chanOps) u2net_full_cfg 1 0 0 (some 3) =
      some (some 1, [some 1, some 1, some 1, some 1, some 1, some 1]) ∧
    U2Net.construct chanOps (U2Net.rsuBlock chanOps) u2net_full_cfg 1 true 0 0
      (some 3) =
      some (.multi [some 1, some 1, some 1, some 1, some 1, some 1, some 1]) :=
  ⟨rfl, (c2_u2net_train_eval_outputs chanOps (U2Net.rsuBlock chanOps)
      u2net_full_cfg 1 0 0 (some 3) (some 1)
      [some 1, some 1, some 1, some 1, some 1, some 1] rfl).1⟩

/-- C3, counterexample to the claim as stated: in `u2net_full`, in the
trace semantics, not every side output is the side convolution of a
decoder-stage output: the side head processed first is applied to the
deepest encoder output, which `decode_outputs` also contains. -/
theorem c3_claim_counterexample :
    (U2Net.side_outputs traceOps tagBlock u2net_full_cfg 1 1 1 .input).map
      (allSidesFromDecode u2net_full_cfg) = some false := by
  decide

/-- C3 (amended): every side output is its side convolution applied to
an element of `decode_outputs` — which holds the decoder-stage outputs
plus the deepest encoder output — followed by bilinear upsampling to
the input resolution `(h, w)`, the side loop pairing the side heads
with `decode_outputs` popped from the end; the fused output is the 1x1
fusion convolution with input channel count `encode_num * out_ch`
applied to the concatenated side outputs.  In `u2net_full` the first
element popped is the deepest encoder output and the other five are
decoder-stage outputs. -/
theorem c3_side_outputs_structure {τ : Type} (ops : Ops τ)
    (block : StageCfg → τ → Option τ) (cfg : U2Cfg) (oc h w : Nat) (x : τ)
    (sides : List Nat) (douts : List τ) (fused : τ) (souts : List τ)
    (hlen : sides.length = douts.length)
    (hp : U2Net.pipe ops block cfg oc h w x = some (fused, souts)) :
    U2Net.sideLoopAux ops oc h w sides douts [] =
      some (((sides.zip douts).map
        (fun p => ops.upHW h w (ops.conv2d p.1 oc 3 1 p.2))).reverse, []) ∧
    fused = ops.conv2d (cfg.encode.length * oc) oc 1 0 (ops.catAll souts) ∧
    (U2Net.decode_outputs traceOps tagBlock u2net_full_cfg .input).map
      (doutsProfile u2net_full_cfg) =
      some (6, [false, true, true, true, true, true],
               [true, false, false, false, false, false]) ∧
    U2Net.side_channels u2net_full_cfg = [512, 512, 256, 128, 64, 64] := by
  refine ⟨?_, (U2Net.pipe_fused ops block cfg oc h w x fused souts hp).1, ?_, rfl⟩
  · have hs := U2Net.sideLoopAux_eq ops oc h w sides douts [] (le_of_eq hlen)
    rw [List.drop_eq_nil_of_le (le_of_eq hlen.symm)] at hs
    simpa using hs
  · decide

/-- C3 witness: the side loop evaluated on a one-element list in the
channel semantics, and the fused-output characterization on
`u2net_full`. -/
theorem c3_side_outputs_structure_witness :
    U2Net.sideLoopAux chanOps 1 0 0 [5] [some 5] [] = some ([some 1], []) ∧
    some 1 = chanOps.conv2d (u2net_full_cfg.encode.length * 1) 1 1 0
      (chanOps.catAll [some 1, some 1, some 1, some 1, some 1, some 1]) ∧
    U2Net.side_channels u2net_full_cfg = [512, 512, 256, 128, 64, 64] := by
  have H := c3_side_outputs_structure chanOps (U2Net.rsuBlock chanOps)
    u2net_full_cfg 1 0 0 (some 3) [5] [some 5] (some 1)
    [some 1, some 1, some 1, some 1, some 1, some 1] rfl rfl
  exact ⟨H.1, H.2.1, H.2.2.2⟩

/-- C6, counterexample to the claim as stated: in both `u2net_full` and
`u2net_lite` the deepest encoder row (En6) has its `side` flag set, so
one side head is attached to an encoder stage. -/
theorem c6_claim_counterexample :
    ¬ (u2net_full_cfg.encode.filter StageCfg.side = [] ∧
       u2net_lite_cfg.encode.filter StageCfg.side = []) := by
  decide

/-- C6 (amended): in `u2net_full` and `u2net_lite` every decoder stage
carries a side head, and exactly one encoder stage does — the deepest
(En6); accordingly, in the trace semantics, of the six side outputs the
five shallower ones are applied to decoder-stage outputs while the
deepest one is applied to the final encoder stage's output. -/
theorem c6_side_heads_attachment :
    u2net_full_cfg.decode.filter StageCfg.side = u2net_full_cfg.decode ∧
    u2net_lite_cfg.decode.filter StageCfg.side = u2net_lite_cfg.decode ∧
    u2net_full_cfg.encode.filter StageCfg.side = [⟨4, 512, 256, 512, true, true⟩] ∧
    u2net_lite_cfg.encode.filter StageCfg.side = [⟨4, 64, 16, 64, true, true⟩] ∧
    (U2Net.side_outputs traceOps tagBlock u2net_full_cfg 1 1 1 .input).map
      (sidesProfile u2net_full_cfg) =
      some ([true, true, true, true, true, false],
            [false, false, false, false, false, true]) ∧
    (U2Net.side_outputs traceOps tagBlock u2net_lite_cfg 1 1 1 .input).map
      (sidesProfile u2net_lite_cfg) =
      some ([true, true, true, true, true, false],
            [false, false, false, false, false, true]) := by
  exact ⟨rfl, rfl, rfl, rfl, by decide, by decide⟩

/-- C9: in `u2net_full` and `u2net_lite` the number of side heads
equals `encode_num = 6`; in the channel semantics the side loop
produces six side outputs of `out_ch` channels each while consuming
`decode_outputs` exactly (empty remainder); their concatenation has
`6 * out_ch` channels, matching the declared input channel count of the
1x1 fusion convolution; and the whole channel-checked forward pass
succeeds. -/
theorem c9_side_count_fusion_channels :
    (U2Net.side_channels u2net_full_cfg).length = u2net_full_cfg.encode.length ∧
    (U2Net.side_channels u2net_lite_cfg).length = u2net_lite_cfg.encode.length ∧
    u2net_full_cfg.encode.length = 6 ∧
    (∀ oc : Nat, U2Net.side_outputs chanOps (U2Net.rsuBlock chanOps)
        u2net_full_cfg oc 0 0 (some 3) =
      some [some oc, some oc, some oc, some oc, some oc, some oc]) ∧
    (∀ oc : Nat, chanOps.catAll
        [some oc, some oc, some oc, some oc, some oc, some oc] =
      some (6 * oc)) ∧
    (U2Net.decode_outputs chanOps (U2Net.rsuBlock chanOps) u2net_full_cfg
        (some 3)).bind (sideConsume u2net_full_cfg) =
      some ([some 1, some 1, some 1, some 1, some 1, some 1], []) ∧
    U2Net.construct chanOps (U2Net.rsuBlock chanOps) u2net_lite_cfg 1 false 0 0
      (some 3) = some (.single (some 1)) := by
  refine ⟨rfl, rfl, rfl, fun oc => rfl, fun oc => ?_, rfl, rfl⟩
  have hfold : chanOps.catAll
      [some oc, some oc, some oc, some oc, some oc, some oc] =
      some (oc + (oc + (oc + (oc + (oc + (oc + 0)))))) := rfl
  rw [hfold]
  congr 1
  omega

/-- C7: the predict script resizes the image to the validation size 384
of model "s", center-crops to the same size, converts to tensor and
normalizes every channel with mean 0.5 and std 0.5; it then runs one
forward pass of a 5-class model, applies softmax over the squeezed
5-class scores along axis 0, and selects the argmax as the predicted
class. -/
theorem c7_predict_pipeline :
    Predict.val_size = 384 ∧
    Predict.data_transform =
      [.resize 384, .centerCrop 384, .toTensor,
       .normalize [1/2, 1/2, 1/2] [1/2, 1/2, 1/2]] ∧
    Predict.num_classes = 5 ∧
    Predict.predict_cla =
      .argmaxA (.softmaxA 0 (.squeezeB (.modelForward 5
        (.unsqueezeB (.transformed Predict.data_transform .image))))) :=
  ⟨rfl, rfl, rfl, rfl⟩
